import Mathlib

/-!
Shallow embedding of the transit-route planner (`src/code.py`).

The Python program is embedded as follows:
* Python floats are modelled as real numbers; all of the search/aggregation
  arithmetic is written polymorphically over a `LinearOrderedField` so that the
  very same definitions can be *run* on `ℚ` and *stated* about `ℝ`.
* Python dicts are association lists with insertion order (`aget`/`aset`);
  `defaultdict(dict)` auto-insertion is modelled explicitly (it is a visible
  side effect of `Graph.get_neighbors` / `Graph.get_route`).
* The mutable per-`Node` scratch fields (`g`, `h`, `f`, `parent`) live inside
  the graph's node table, exactly as in the source where they live on the
  shared `Node` objects; `float('inf')` is modelled as `none`.
* The unbounded `while open_set:` loop is modelled with a fuel parameter
  (`ARes.fuelOut` = the loop is still running after that many iterations);
  Python `KeyError` is modelled as `ARes.err` / `none`.
* `min(open_set, key=...)` iterates a Python set in unspecified order; it is
  modelled as first-minimum over the insertion-ordered open list.  Every
  concrete execution proved about below selects from either a singleton open
  set or one with strictly distinct f-values, so the modelled order is
  irrelevant to the results.
* The heuristic (`haversine` over `math.sin`/`cos`/`atan2`/`sqrt`) is modelled
  exactly over `ℝ`; the search engine takes the distance function as an
  explicit argument, and the program's search is the `haversine` instance.
-/

namespace TransitPlan

/-- Python dict lookup on an association list (first binding wins; lists built
by `aset` have unique keys, matching dict semantics). -/
def aget {β : Type} : List (String × β) → String → Option β
  | [], _ => none
  | (k', v) :: t, k => if k' = k then some v else aget t k

/-- Python dict assignment: overwrite an existing binding in place, append a
fresh key at the end (dicts preserve insertion order). -/
def aset {β : Type} : List (String × β) → String → β → List (String × β)
  | [], k, v => [(k, v)]
  | (k', v') :: t, k, v => if k' = k then (k, v) :: t else (k', v') :: aset t k v

/-- `class Node`: a named vertex plus the mutable search-scratch fields set up
by `Node.__init__` (`g = float('inf')`, `h = 0`, `f = float('inf')`,
`parent = None`).  `none` in `g`/`f` models `float('inf')`. -/
structure Node (α : Type) where
  name : String
  location : α × α
  g : Option α
  h : α
  f : Option α
  parent : Option String
deriving DecidableEq

/-- `Node.__init__(name, location)`. -/
def Node.init {α : Type} [LinearOrderedField α] (name : String) (location : α × α) : Node α :=
  { name := name, location := location, g := none, h := 0, f := none, parent := none }

/-- `class TransportRoute`: the immutable edge record (field order follows
`TransportRoute.__init__`). -/
structure TransportRoute (α : Type) where
  name : String
  mode : String
  class_type : String
  base_cost : α
  base_time : α
  average_delay : α
  transfer_time : α
  stop_time : α
  expected_waiting : α
deriving DecidableEq

/-- `TransportRoute.calculate_total_cost`. -/
def TransportRoute.calculate_total_cost {α : Type} (r : TransportRoute α) : α :=
  r.base_cost

/-- `TransportRoute.calculate_total_time`. -/
def TransportRoute.calculate_total_time {α : Type} [LinearOrderedField α]
    (r : TransportRoute α) : α :=
  r.base_time + r.stop_time + r.average_delay + r.expected_waiting + r.transfer_time

/-- `class Graph`: `nodes` is the name→Node dict, `edges` the
`defaultdict(dict)` of source-name → (target-name → route). -/
structure Graph (α : Type) where
  nodes : List (String × Node α)
  edges : List (String × List (String × TransportRoute α))
deriving DecidableEq

/-- `Graph.add_node`: unconditional insert/overwrite with a fresh `Node`. -/
def Graph.add_node {α : Type} [LinearOrderedField α]
    (g : Graph α) (name : String) (location : α × α) : Graph α :=
  { g with nodes := aset g.nodes name (Node.init name location) }

/-- `Graph.add_edge`: `self.edges[from_node][to_node] = route`.  The outer
`defaultdict` indexing creates the inner dict when absent; there is no check
whatsoever that either endpoint is a registered node. -/
def Graph.add_edge {α : Type}
    (g : Graph α) (from_node to_node : String) (route : TransportRoute α) : Graph α :=
  { g with edges := (aset g.edges from_node
      (aset ((aget g.edges from_node).getD []) to_node route)) }

/-- `Graph.get_neighbors`: `self.edges[node.name].keys()`.  Reading a missing
key of a `defaultdict` *inserts* a fresh empty dict at the end of the mapping,
so the call can mutate the graph; the updated graph is returned. -/
def Graph.get_neighbors {α : Type} (g : Graph α) (name : String) :
    List String × Graph α :=
  match aget g.edges name with
  | some d => (d.map Prod.fst, g)
  | none => ([], { g with edges := g.edges ++ [(name, [])] })

/-- `Graph.get_route`: `self.edges[from_node.name][to_node.name]`.  The outer
`defaultdict` access inserts an empty dict when the source key is missing; a
missing target key raises `KeyError`, modelled by `none` in the first
component. -/
def Graph.get_route {α : Type} (g : Graph α) (from_node to_node : String) :
    Option (TransportRoute α) × Graph α :=
  match aget g.edges from_node with
  | some d => (aget d to_node, g)
  | none => (none, { g with edges := g.edges ++ [(from_node, [])] })

/-- Pure edge lookup (no `defaultdict` side effect), used only to *state*
properties about paths in a graph. -/
def routeBetween {α : Type} (g : Graph α) (a b : String) : Option (TransportRoute α) :=
  (aget g.edges a).bind (fun d => aget d b)

/-- There is a directed edge `a → b` in the graph. -/
def EdgeStep {α : Type} (g : Graph α) (a b : String) : Prop :=
  (routeBetween g a b).isSome = true

/-- There is a (possibly empty) directed path `a → … → b` in the graph. -/
def Reaches {α : Type} (g : Graph α) : String → String → Prop :=
  Relation.ReflTransGen (EdgeStep g)

/-- Strict comparison on `Option`-valued costs, `none` playing `float('inf')`:
`inf < y` is always false and `x < inf` is true for finite `x`, matching IEEE
comparison of `float('inf')`. -/
def oLt {α : Type} [LT α] : Option α → Option α → Prop
  | some x, some y => x < y
  | some _, none => True
  | none, _ => False

instance {α : Type} [LinearOrder α] : ∀ a b : Option α, Decidable (oLt a b)
  | some x, some y => inferInstanceAs (Decidable (x < y))
  | some _, none => Decidable.isTrue trivial
  | none, some _ => Decidable.isFalse (fun h => h)
  | none, none => Decidable.isFalse (fun h => h)

@[simp]
theorem oLt_some_some {α : Type} [LT α] (x y : α) : oLt (some x) (some y) ↔ x < y :=
  Iff.rfl

@[simp]
theorem oLt_some_none {α : Type} [LT α] (x : α) : oLt (some x) none ↔ True :=
  Iff.rfl

@[simp]
theorem oLt_none {α : Type} [LT α] (b : Option α) : oLt none b ↔ False := by
  cases b <;> exact Iff.rfl

/-- The f-score the loop reads off a node of the graph (`node.f`). -/
def fscore {α : Type} (g : Graph α) (n : String) : Option α :=
  match aget g.nodes n with
  | some nd => nd.f
  | none => none

/-- `min(open_set, key=lambda node: node.f)`: first element with minimal
f-value (Python's `min` keeps the earliest minimum). -/
def selectMin {α : Type} [LinearOrder α] (g : Graph α) (o : String) (os : List String) : String :=
  os.foldl (fun best n => if oLt (fscore g n) (fscore g best) then n else best) o

/-- `open_set.remove(x)` (open-set names are unique, so removing the first
occurrence is set removal). -/
def removeFirst : List String → String → List String
  | [], _ => []
  | y :: t, x => if y = x then t else y :: removeFirst t x

/-- `reconstruct_path`: follow `parent` back-pointers, then reverse.  The
Python `while node:` loop is given fuel (one more than the node count suffices
whenever the parent pointers are acyclic); `none` models a lookup failure or
exhausted fuel. -/
def reconstruct_path {α : Type} (g : Graph α) : Nat → String → Option (List String)
  | 0, _ => none
  | fuel + 1, name =>
    match aget g.nodes name with
    | none => none
    | some nd =>
      match nd.parent with
      | none => some [name]
      | some p => (reconstruct_path g fuel p).map (fun l => l ++ [name])

/-- The per-iteration state of the `while open_set:` loop. -/
structure SState (α : Type) where
  open_set : List String
  closed_set : List String
  graph : Graph α
deriving DecidableEq

/-- The `for neighbor in graph.get_neighbors(current_node):` body, folded over
the neighbor list.  Per neighbor: look the node up (`KeyError` → `none`),
fetch the route, compute `tentative_g = current.g + route.calculate_total_cost()`,
relax when strictly better — re-reading the current node's `g` from the graph
each iteration exactly as the attribute access does — and finally add the
neighbor to the open list when absent (there is *no* closed-set check in the
source). -/
def expand {α : Type} [LinearOrderedField α] (dist : α × α → α × α → α)
    (goalLoc : α × α) (curName : String) :
    List String → Graph α → List String → Option (Graph α × List String)
  | [], g, opn => some (g, opn)
  | nb :: rest, g, opn =>
    match aget g.nodes nb with
    | none => none
    | some nbNd =>
      match (g.get_route curName nb).1 with
      | none => none
      | some route =>
        match aget (g.get_route curName nb).2.nodes curName with
        | none => none
        | some curNd =>
          expand dist goalLoc curName rest
            (if oLt (curNd.g.map (fun x => x + route.calculate_total_cost)) nbNd.g then
              { (g.get_route curName nb).2 with
                nodes := (aset (g.get_route curName nb).2.nodes nb
                  ({ nbNd with
                      parent := some curName
                      g := curNd.g.map (fun x => x + route.calculate_total_cost)
                      h := dist nbNd.location goalLoc
                      f := (curNd.g.map (fun x => x + route.calculate_total_cost)).map
                        (fun x => x + dist nbNd.location goalLoc) })) }
             else (g.get_route curName nb).2)
            (if nb ∈ opn then opn else opn ++ [nb])

/-- One iteration of the `while open_set:` loop. -/
inductive StepOut (α : Type) where
  | found : List String → Graph α → StepOut α
  | nopath : Graph α → StepOut α
  | next : SState α → StepOut α
  | err : StepOut α
deriving DecidableEq

/-- One iteration of the main loop of `astar_search`, on the three state
components (open list, closed list, graph): select the open node of minimal
`f` (`current`), return the reconstructed path if it is the goal, otherwise
remove it from open, add it to closed, and expand its neighbors. -/
def stepGo {α : Type} [LinearOrderedField α] (dist : α × α → α × α → α)
    (goalName : String) (goalLoc : α × α) :
    List String → List String → Graph α → StepOut α
  | [], _, g => .nopath g
  | o :: os, closed, g =>
    if selectMin g o os = goalName then
      match reconstruct_path g (g.nodes.length + 1) (selectMin g o os) with
      | some p => .found p g
      | none => .err
    else
      match expand dist goalLoc (selectMin g o os)
          (g.get_neighbors (selectMin g o os)).1
          (g.get_neighbors (selectMin g o os)).2
          (removeFirst (o :: os) (selectMin g o os)) with
      | none => .err
      | some (g2, opn2) =>
        .next ⟨opn2,
          if selectMin g o os ∈ closed then closed else closed ++ [selectMin g o os], g2⟩

/-- One iteration of the `while open_set:` loop on a packaged state. -/
def stepFn {α : Type} [LinearOrderedField α] (dist : α × α → α × α → α)
    (goalName : String) (goalLoc : α × α) (st : SState α) : StepOut α :=
  stepGo dist goalName goalLoc st.open_set st.closed_set st.graph

/-- A finished `astar_search` call: the returned path (with the final graph
state, whose node scratch fields the call mutated), the `return None`
unreachable outcome, exhausted fuel (the loop is still running), or a raised
`KeyError`. -/
inductive ARes (α : Type) where
  | path : List String → Graph α → ARes α
  | unreachable : Graph α → ARes α
  | fuelOut : ARes α
  | err : ARes α
deriving DecidableEq

/-- The `while open_set:` loop, driven by fuel. -/
def astarGo {α : Type} [LinearOrderedField α] (dist : α × α → α × α → α)
    (goalName : String) (goalLoc : α × α) : Nat → SState α → ARes α
  | 0, _ => .fuelOut
  | fuel + 1, st =>
    match stepFn dist goalName goalLoc st with
    | .found p g => .path p g
    | .nopath g => .unreachable g
    | .err => .err
    | .next st' => astarGo dist goalName goalLoc fuel st'

/-- `astar_search(start_node, goal_node, graph)`, with the heuristic's
distance function as an explicit argument (the program instantiates it with
`haversine`, see `heuristic` below).  Both node arguments are passed as
`graph.nodes[...]` at every call site, so the embedding takes the names and
performs the lookup.  Initialization follows the source: `start.g = 0`,
`start.h = heuristic(start, goal)`, `start.f = start.g + start.h` — note that
nothing else is reset: every other node keeps whatever scratch state it
already carries. -/
def astar_search {α : Type} [LinearOrderedField α] (dist : α × α → α × α → α)
    (start_node goal_node : String) (graph : Graph α) (fuel : Nat) : ARes α :=
  match aget graph.nodes start_node, aget graph.nodes goal_node with
  | some sNd, some gNd =>
    let h0 := dist sNd.location gNd.location
    let sNd' : Node α := { sNd with g := some 0, h := h0, f := some (0 + h0) }
    let g' : Graph α := { graph with nodes := aset graph.nodes start_node sNd' }
    astarGo dist goal_node gNd.location fuel ⟨[start_node], [], g'⟩
  | _, _ => .err

/-- Observer: run `n` loop iterations that all continue, returning the state
reached (`none` if the loop returned or raised earlier). -/
def runSteps {α : Type} [LinearOrderedField α] (dist : α × α → α × α → α)
    (goalName : String) (goalLoc : α × α) : Nat → SState α → Option (SState α)
  | 0, st => some st
  | n + 1, st =>
    match stepFn dist goalName goalLoc st with
    | .next st' => runSteps dist goalName goalLoc n st'
    | _ => none

/-- Observer: the node `min(open_set, key=f)` selects in a state. -/
def extracted {α : Type} [LinearOrder α] (st : SState α) : Option String :=
  match st.open_set with
  | [] => none
  | o :: os => some (selectMin st.graph o os)

/-- `collect_route_details(routes)`: the running-total loop of the source,
returning `(total_time, total_cost, total_transfers, total_transfer_time)`.
`total_transfers = len(routes) - 1` is Python int arithmetic, modelled in `ℤ`. -/
def collect_route_details {α : Type} [LinearOrderedField α]
    (routes : List (TransportRoute α)) : α × α × ℤ × α :=
  let total_transfers : ℤ := (routes.length : ℤ) - 1
  let total_transfer_time : α := (routes.map (fun r => r.transfer_time)).sum
  let total_cost : α := routes.foldl (fun acc r => acc + r.calculate_total_cost) 0
  let total_time : α := routes.foldl (fun acc r => acc + r.calculate_total_time) 0
  (total_time, total_cost, total_transfers, total_transfer_time)

/-- `math.radians`: degrees to radians. -/
noncomputable def radians (x : ℝ) : ℝ := x * Real.pi / 180

/-- `math.atan2(y, x)` (note Python's argument order). -/
noncomputable def atan2 (y x : ℝ) : ℝ :=
  if 0 < x then Real.arctan (y / x)
  else if x < 0 then
    (if 0 ≤ y then Real.arctan (y / x) + Real.pi else Real.arctan (y / x) - Real.pi)
  else
    (if 0 < y then Real.pi / 2 else if y < 0 then -(Real.pi / 2) else 0)

/-- `haversine(coord1, coord2)`: great-circle distance in kilometres, exactly
as computed by the source (floats modelled as reals). -/
noncomputable def haversine (coord1 coord2 : ℝ × ℝ) : ℝ :=
  let dlat := radians (coord2.1 - coord1.1)
  let dlon := radians (coord2.2 - coord1.2)
  let a := Real.sin (dlat / 2) ^ 2 +
    Real.cos (radians coord1.1) * Real.cos (radians coord2.1) * Real.sin (dlon / 2) ^ 2
  let c := 2 * atan2 (Real.sqrt a) (Real.sqrt (1 - a))
  6371.0 * c

/-- `heuristic(node1, node2) = haversine(node1.location, node2.location)`:
the distance function the program's search actually uses — kilometres of
great-circle distance, added to and compared against `g`-values that are sums
of `base_cost` (currency units). -/
noncomputable def heuristic (node1 node2 : Node ℝ) : ℝ :=
  haversine node1.location node2.location

/-- Stable insertion into a key-sorted list: the inserted element goes in
front of the first element whose key is greater or equal, so that elements
inserted later (which occur earlier in the input list) stay in front of equal
keys — the stability guarantee of Python's `sorted`. -/
def insertSorted {α : Type} [LinearOrder α] (key : Node α → α) (x : Node α) :
    List (Node α) → List (Node α)
  | [] => [x]
  | y :: t => if key x ≤ key y then x :: y :: t else y :: insertSorted key x t

/-- Python's stable `sorted(stations, key=...)` (any stable sort produces the
same list, so a stable insertion sort models it faithfully). -/
def sortByKey {α : Type} [LinearOrder α] (key : Node α → α) :
    List (Node α) → List (Node α)
  | [] => []
  | x :: t => insertSorted key x (sortByKey key t)

/-- `find_nearest_stations`: the three stations closest to home and to hotel,
by `haversine` distance (distance function abstracted like for the search). -/
def find_nearest_stations {α : Type} [LinearOrderedField α]
    (dist : α × α → α × α → α) (home_location hotel_location : α × α)
    (stations : List (Node α)) : List (Node α) × List (Node α) :=
  ((sortByKey (fun station => dist home_location station.location) stations).take 3,
   (sortByKey (fun station => dist hotel_location station.location) stations).take 3)

/-- The trip dictionary `plan_trip` builds for each found route. -/
structure Candidate (α : Type) where
  total_time : α
  total_cost : α
  total_transfers : ℤ
  total_transfer_time : α
  route : List (TransportRoute α)
deriving DecidableEq

/-- `[(p[i], p[i+1]) for i in range(len(p) - 1)]`. -/
def consecPairs : List String → List (String × String)
  | [] => []
  | [_] => []
  | a :: b :: t => (a, b) :: consecPairs (b :: t)

/-- The inner `for i in range(len(route_to_station) - 1):` loop of `plan_trip`:
fetch the route of every consecutive pair, threading the graph through
`get_route`'s `defaultdict` side effect; `none` models a `KeyError`. -/
def routeListFor {α : Type} : Graph α → List (String × String) →
    Option (List (TransportRoute α) × Graph α)
  | g, [] => some ([], g)
  | g, (a, b) :: rest =>
    let pr := g.get_route a b
    match pr.1 with
    | none => none
    | some r => (routeListFor pr.2 rest).map (fun x => (r :: x.1, x.2))

/-- The nested `for start_station: for end_station:` loop of `plan_trip`:
run the search for each pair on the *same* graph object (scratch state
carries over from pair to pair, exactly like the source), keep the edge
list of every truthy result (`if route_to_station:` — `None` and the empty
list are falsy), and drop unreachable pairs.  `none` models a raised
`KeyError` or a search that never terminates. -/
def searchPairs {α : Type} [LinearOrderedField α] (dist : α × α → α × α → α)
    (fuel : Nat) : List (String × String) → Graph α →
    List (List (TransportRoute α)) → Option (List (List (TransportRoute α)) × Graph α)
  | [], g, acc => some (acc, g)
  | (s, e) :: rest, g, acc =>
    match astar_search dist s e g fuel with
    | .path p g1 =>
      if p = [] then searchPairs dist fuel rest g1 acc
      else
        match routeListFor g1 (consecPairs p) with
        | none => none
        | some (rs, g2) => searchPairs dist fuel rest g2 (acc ++ [rs])
    | .unreachable g1 => searchPairs dist fuel rest g1 acc
    | .fuelOut => none
    | .err => none

/-- `plan_trip(home_location, hotel_location, stations, graph)`. -/
def plan_trip {α : Type} [LinearOrderedField α] (dist : α × α → α × α → α)
    (home_location hotel_location : α × α) (stations : List (Node α))
    (graph : Graph α) (fuel : Nat) : Option (List (Candidate α)) :=
  let nearest := find_nearest_stations dist home_location hotel_location stations
  let pairs := nearest.1.flatMap (fun s => nearest.2.map (fun e => (s.name, e.name)))
  match searchPairs dist fuel pairs graph [] with
  | none => none
  | some (all_routes, _) =>
    some (all_routes.map (fun route =>
      let d := collect_route_details route
      { total_time := d.1, total_cost := d.2.1, total_transfers := d.2.2.1,
        total_transfer_time := d.2.2.2, route := route }))

/-- `Train A-B` of the `__main__` example (cost 100). -/
def rAB : TransportRoute ℝ :=
  { name := "Train A-B", mode := "train", class_type := "economy",
    base_cost := 100, base_time := 6, average_delay := 1, transfer_time := 0,
    stop_time := 1, expected_waiting := 0 }

/-- `Train B-C` of the `__main__` example (cost 150). -/
def rBC : TransportRoute ℝ :=
  { name := "Train B-C", mode := "train", class_type := "economy",
    base_cost := 150, base_time := 5, average_delay := 0, transfer_time := 1,
    stop_time := 1, expected_waiting := 0 }

/-- `Flight A-C` of the `__main__` example (cost 300). -/
def rAC : TransportRoute ℝ :=
  { name := "Flight A-C", mode := "plane", class_type := "business",
    base_cost := 300, base_time := 10, average_delay := 2, transfer_time := 0,
    stop_time := 0, expected_waiting := 1 }

/-- The `__main__` example graph: three stations and three routes, with the
exact coordinates, costs and time fields of the source. -/
noncomputable def exampleGraph : Graph ℝ :=
  Graph.mk ([] : List (String × Node ℝ)) []
  |>.add_node "Station A" (40.7128, -74.0060)
  |>.add_node "Station B" (34.0522, -118.2437)
  |>.add_node "Station C" (51.5074, -0.1278)
  |>.add_edge "Station A" "Station B" rAB
  |>.add_edge "Station B" "Station C" rBC
  |>.add_edge "Station A" "Station C" rAC

/-- The heuristic at coinciding coordinates is exactly zero: `dlat = dlon = 0`
makes `a = 0` and `atan2(0, 1) = 0`. -/
theorem haversine_self (p : ℝ × ℝ) : haversine p p = 0 := by
  norm_num [haversine, radians, atan2, Real.arctan_zero]

/-- Route `S → X` of the cyclic counterexample graph (cost 1). -/
def rSX : TransportRoute ℝ :=
  { name := "sx", mode := "m", class_type := "c", base_cost := 1, base_time := 0,
    average_delay := 0, transfer_time := 0, stop_time := 0, expected_waiting := 0 }

/-- Route `X → Y` of the cyclic counterexample graph (cost 2). -/
def rXY : TransportRoute ℝ :=
  { name := "xy", mode := "m", class_type := "c", base_cost := 2, base_time := 0,
    average_delay := 0, transfer_time := 0, stop_time := 0, expected_waiting := 0 }

/-- Route `Y → X` of the cyclic counterexample graph (cost 4). -/
def rYX : TransportRoute ℝ :=
  { name := "yx", mode := "m", class_type := "c", base_cost := 4, base_time := 0,
    average_delay := 0, transfer_time := 0, stop_time := 0, expected_waiting := 0 }

/-- A 4-node graph with a 2-cycle `X ⇄ Y` reachable from `S` and an isolated
goal node `G`: `S→X` (cost 1), `X→Y` (cost 2), `Y→X` (cost 4).  All nodes sit
at the same coordinates, so the heuristic is identically zero and every open
set the search ever builds is a singleton — the behavior is independent of
the modelled set-iteration order. -/
noncomputable def cycGraph : Graph ℝ :=
  Graph.mk [] []
  |>.add_node "S" (0, 0) |>.add_node "X" (0, 0) |>.add_node "Y" (0, 0) |>.add_node "G" (0, 0)
  |>.add_edge "S" "X" rSX |>.add_edge "X" "Y" rXY |>.add_edge "Y" "X" rYX

/-- The edge table of `cycGraph`. -/
def cycE : List (String × List (String × TransportRoute ℝ)) :=
  [("S", [("X", rSX)]), ("X", [("Y", rXY)]), ("Y", [("X", rYX)])]

/-- The loop state right after `astar_search`'s initialization on `cycGraph`
(start `S`, goal `G`). -/
def cycSt0 : SState ℝ :=
  { open_set := ["S"], closed_set := [],
    graph := Graph.mk
      [("S", { name := "S", location := (0,0), g := some 0, h := 0, f := some 0, parent := none }),
       ("X", { name := "X", location := (0,0), g := none, h := 0, f := none, parent := none }),
       ("Y", { name := "Y", location := (0,0), g := none, h := 0, f := none, parent := none }),
       ("G", { name := "G", location := (0,0), g := none, h := 0, f := none, parent := none })]
      cycE }

/-- `cycGraph` search state after one loop iteration (`S` expanded). -/
def cycSt1 : SState ℝ :=
  { open_set := ["X"], closed_set := ["S"],
    graph := Graph.mk
      [("S", { name := "S", location := (0,0), g := some 0, h := 0, f := some 0, parent := none }),
       ("X", { name := "X", location := (0,0), g := some 1, h := 0, f := some 1, parent := some "S" }),
       ("Y", { name := "Y", location := (0,0), g := none, h := 0, f := none, parent := none }),
       ("G", { name := "G", location := (0,0), g := none, h := 0, f := none, parent := none })]
      cycE }

/-- The node table of `cycGraph` after both `X` and `Y` have been relaxed; it
never changes again (no later tentative value beats the recorded ones). -/
def cycN2 : List (String × Node ℝ) :=
  [("S", { name := "S", location := (0,0), g := some 0, h := 0, f := some 0, parent := none }),
   ("X", { name := "X", location := (0,0), g := some 1, h := 0, f := some 1, parent := some "S" }),
   ("Y", { name := "Y", location := (0,0), g := some 3, h := 0, f := some 3, parent := some "X" }),
   ("G", { name := "G", location := (0,0), g := none, h := 0, f := none, parent := none })]

/-- `cycGraph` search state after two iterations (`X` expanded). -/
def cycSt2 : SState ℝ :=
  { open_set := ["Y"], closed_set := ["S", "X"], graph := Graph.mk cycN2 cycE }

/-- `cycGraph` search state after three iterations: `Y` was expanded and put
its closed neighbor `X` back into the open set. -/
def cycSt3 : SState ℝ :=
  { open_set := ["X"], closed_set := ["S", "X", "Y"], graph := Graph.mk cycN2 cycE }

/-- `cycGraph` search state after four iterations: the re-extracted `X` put
the closed `Y` back into the open set; from here the loop alternates between
`cycSt3` and `cycSt4` forever. -/
def cycSt4 : SState ℝ :=
  { open_set := ["Y"], closed_set := ["S", "X", "Y"], graph := Graph.mk cycN2 cycE }

theorem cyc_step0 : stepFn haversine "G" (0, 0) cycSt0 = .next cycSt1 := by
  simp [stepFn, stepGo, cycSt0, cycSt1, cycE, selectMin, fscore, aget, aset, removeFirst,
    Graph.get_neighbors, Graph.get_route, expand, haversine_self,
    TransportRoute.calculate_total_cost, rSX, rXY, rYX]

theorem cyc_step1 : stepFn haversine "G" (0, 0) cycSt1 = .next cycSt2 := by
  simp [stepFn, stepGo, cycSt1, cycSt2, cycE, cycN2, selectMin, fscore, aget, aset, removeFirst,
    Graph.get_neighbors, Graph.get_route, expand, haversine_self,
    TransportRoute.calculate_total_cost, rSX, rXY, rYX]
  norm_num

theorem cyc_step2 : stepFn haversine "G" (0, 0) cycSt2 = .next cycSt3 := by
  simp [stepFn, stepGo, cycSt2, cycSt3, cycE, cycN2, selectMin, fscore, aget, aset, removeFirst,
    Graph.get_neighbors, Graph.get_route, expand, haversine_self,
    TransportRoute.calculate_total_cost, rSX, rXY, rYX]
  norm_num

theorem cyc_step3 : stepFn haversine "G" (0, 0) cycSt3 = .next cycSt4 := by
  simp [stepFn, stepGo, cycSt3, cycSt4, cycE, cycN2, selectMin, fscore, aget, aset, removeFirst,
    Graph.get_neighbors, Graph.get_route, expand, haversine_self,
    TransportRoute.calculate_total_cost, rSX, rXY, rYX]
  norm_num

theorem cyc_step4 : stepFn haversine "G" (0, 0) cycSt4 = .next cycSt3 := by
  simp [stepFn, stepGo, cycSt4, cycSt3, cycE, cycN2, selectMin, fscore, aget, aset, removeFirst,
    Graph.get_neighbors, Graph.get_route, expand, haversine_self,
    TransportRoute.calculate_total_cost, rSX, rXY, rYX]
  norm_num

/-- From the fourth iteration on, the loop alternates between two states,
so no amount of fuel makes it return. -/
theorem cyc_go_cycle (n : Nat) :
    astarGo haversine "G" (0, 0) n cycSt3 = ARes.fuelOut ∧
    astarGo haversine "G" (0, 0) n cycSt4 = ARes.fuelOut := by
  induction n with
  | zero => exact ⟨rfl, rfl⟩
  | succ m ih =>
    constructor
    · show astarGo haversine "G" (0, 0) (m + 1) cycSt3 = ARes.fuelOut
      rw [astarGo, cyc_step3]
      exact ih.2
    · show astarGo haversine "G" (0, 0) (m + 1) cycSt4 = ARes.fuelOut
      rw [astarGo, cyc_step4]
      exact ih.1

/-- Helper: on `cycGraph` (start `S`, goal `G`) the initialization of
`astar_search` produces exactly the state `cycSt0`. -/
theorem cyc_init (m : Nat) :
    astar_search haversine "S" "G" cycGraph m = astarGo haversine "G" (0, 0) m cycSt0 := by
  simp [astar_search, cycGraph, Graph.add_node, Graph.add_edge, Node.init, aset, aget,
    cycSt0, cycE, haversine_self, rSX, rXY, rYX]

/-- Helper: `astar_search` on `cycGraph` from `S` towards the unreachable
goal `G` runs out of any amount of fuel — the loop never terminates. -/
theorem cyc_never_returns (n : Nat) :
    astar_search haversine "S" "G" cycGraph n = ARes.fuelOut := by
  rw [cyc_init]
  match n with
  | 0 => rfl
  | 1 =>
    show astarGo haversine "G" (0, 0) (0 + 1) cycSt0 = ARes.fuelOut
    rw [astarGo, cyc_step0]; rfl
  | 2 =>
    show astarGo haversine "G" (0, 0) (1 + 1) cycSt0 = ARes.fuelOut
    rw [astarGo, cyc_step0]
    show astarGo haversine "G" (0, 0) (0 + 1) cycSt1 = ARes.fuelOut
    rw [astarGo, cyc_step1]; rfl
  | 3 =>
    show astarGo haversine "G" (0, 0) (2 + 1) cycSt0 = ARes.fuelOut
    rw [astarGo, cyc_step0]
    show astarGo haversine "G" (0, 0) (1 + 1) cycSt1 = ARes.fuelOut
    rw [astarGo, cyc_step1]
    show astarGo haversine "G" (0, 0) (0 + 1) cycSt2 = ARes.fuelOut
    rw [astarGo, cyc_step2]; rfl
  | m + 4 =>
    show astarGo haversine "G" (0, 0) (m + 3 + 1) cycSt0 = ARes.fuelOut
    rw [astarGo, cyc_step0]
    show astarGo haversine "G" (0, 0) (m + 2 + 1) cycSt1 = ARes.fuelOut
    rw [astarGo, cyc_step1]
    show astarGo haversine "G" (0, 0) (m + 1 + 1) cycSt2 = ARes.fuelOut
    rw [astarGo, cyc_step2]
    show astarGo haversine "G" (0, 0) (m + 1) cycSt3 = ARes.fuelOut
    exact (cyc_go_cycle (m + 1)).1

theorem aget_aset_self {β : Type} (l : List (String × β)) (k : String) (v : β) :
    aget (aset l k v) k = some v := by
  induction l with
  | nil => simp [aget, aset]
  | cons p t ih =>
    by_cases hk : p.1 = k
    · simp [aset, hk, aget]
    · simp [aset, hk, aget, ih]

theorem foldl_add_eq {α : Type} [LinearOrderedField α] (f : TransportRoute α → α) :
    ∀ (l : List (TransportRoute α)) (init : α),
      l.foldl (fun acc r => acc + f r) init = init + (l.map f).sum := by
  intro l
  induction l with
  | nil => intro init; simp
  | cons r t ih => intro init; simp [ih, add_assoc]

/-- Cost of a node sequence in a graph: sum of `base_cost` over its
consecutive edges (`none` when some edge is absent). -/
def pathCost {α : Type} [LinearOrderedField α] (g : Graph α) (p : List String) : Option α :=
  (consecPairs p).foldr
    (fun ab acc =>
      match routeBetween g ab.1 ab.2, acc with
      | some r, some c => some (r.calculate_total_cost + c)
      | _, _ => none)
    (some 0)

/-- The node sequence is a non-empty directed path in the graph (every
consecutive pair is an edge). -/
def isPathIn {α : Type} (g : Graph α) (p : List String) : Prop :=
  p ≠ [] ∧ ∀ ab ∈ consecPairs p, (routeBetween g ab.1 ab.2).isSome = true

/-- The search eventually returns the explicit no-path signal (`return None`)
for the given endpoints. -/
def returnsNoPathSignal (g : Graph ℝ) (s t : String) : Prop :=
  ∃ (n : Nat) (gf : Graph ℝ), astar_search haversine s t g n = ARes.unreachable gf

/-- Helper: when start = goal and the start node carries no parent pointer,
the very first loop iteration hits the goal test and returns the singleton
path, with `g = 0` recorded on the node; no expansion happens, so any
self-loop edge is irrelevant. -/
theorem astar_self_run {α : Type} [LinearOrderedField α] (dist : α × α → α × α → α)
    (g : Graph α) (n : String) (nd : Node α)
    (hn : aget g.nodes n = some nd) (hp : nd.parent = none) (fuel : Nat) :
    astar_search dist n n g (fuel + 1) =
      ARes.path [n] (Graph.mk (aset g.nodes n
        ({ nd with
            g := some 0
            h := dist nd.location nd.location
            f := some (0 + dist nd.location nd.location) })) g.edges) := by
  simp only [astar_search, hn]
  rw [astarGo]
  simp [stepFn, stepGo, selectMin, reconstruct_path, aget_aset_self, hp]

/-- C5 amendment helper: `add_edge` records the route unconditionally and
touches nothing but the edge table. -/
theorem add_edge_always_records {α : Type} (g : Graph α) (from_node to_node : String)
    (route : TransportRoute α) :
    routeBetween (g.add_edge from_node to_node route) from_node to_node = some route ∧
    (g.add_edge from_node to_node route).nodes = g.nodes := by
  constructor
  · simp [Graph.add_edge, routeBetween, aget_aset_self]
  · rfl

/-- C2: the claim says every `astar_search` run terminates, in particular on
cyclic graphs with an unreachable goal.  The code has no closed-set check
before re-inserting a neighbor into the open set (line 90 only tests
membership in `open_set`), so on `cycGraph` — a 2-cycle `X ⇄ Y` reachable
from the start `S` with an isolated goal `G` — the loop re-extracts `X` and
`Y` alternately forever: for every fuel bound the loop is still running.
The spec describes the standard open/closed A* discipline, so this is a code
bug, not a spec error. -/
theorem C2_search_on_cyclic_graph_never_terminates (n : Nat) :
    astar_search haversine "S" "G" cycGraph n = ARes.fuelOut :=
  cyc_never_returns n

/-- C3: the claim says open and closed stay disjoint and no loop iteration
extracts a node already in the closed set.  On `cycGraph` (start `S`, goal
`G`), after three iterations of the actual run the state is `cycSt3`, in
which `X` is simultaneously in the open and the closed set, and the fourth
iteration extracts exactly this closed `X` and expands it again.  The missing
closed-set check is a code bug (the spec describes standard A*). -/
theorem C3_closed_node_reextracted_and_sets_overlap :
    (∀ m, astar_search haversine "S" "G" cycGraph m = astarGo haversine "G" (0, 0) m cycSt0) ∧
    runSteps haversine "G" (0, 0) 3 cycSt0 = some cycSt3 ∧
    extracted cycSt3 = some "X" ∧
    "X" ∈ cycSt3.closed_set ∧
    "X" ∈ cycSt3.open_set ∧
    stepFn haversine "G" (0, 0) cycSt3 = StepOut.next cycSt4 := by
  refine ⟨cyc_init, ?_, ?_, ?_, ?_, cyc_step3⟩
  · show runSteps haversine "G" (0, 0) (2 + 1) cycSt0 = some cycSt3
    rw [runSteps, cyc_step0]
    show runSteps haversine "G" (0, 0) (1 + 1) cycSt1 = some cycSt3
    rw [runSteps, cyc_step1]
    show runSteps haversine "G" (0, 0) (0 + 1) cycSt2 = some cycSt3
    rw [runSteps, cyc_step2]
    rfl
  · simp [extracted, cycSt3, selectMin]
  · simp [cycSt3]
  · simp [cycSt3]

/-- C5 counterexample: `add_edge` on the empty graph with two endpoints that
were never registered via `add_node` does not raise anything — it silently
records the dangling edge. -/
theorem C5_counterexample_dangling_edge_recorded :
    aget (Graph.mk ([] : List (String × Node ℝ)) []).nodes "X" = none ∧
    aget (Graph.mk ([] : List (String × Node ℝ)) []).nodes "Y" = none ∧
    ((Graph.mk ([] : List (String × Node ℝ)) []).add_edge "X" "Y" rSX).edges =
      [("X", [("Y", rSX)])] := by
  refine ⟨rfl, rfl, ?_⟩
  simp [Graph.add_edge, aget, aset]

/-- C5 amended: `add_edge` performs no endpoint validation at all — for every
graph and endpoints (registered or not) it succeeds, records the route under
the ordered pair, and leaves the node table unchanged; no `UnknownNode` error
exists anywhere in the program. -/
theorem C5_add_edge_never_validates_endpoints (g : Graph ℝ) (from_node to_node : String)
    (route : TransportRoute ℝ) :
    routeBetween (g.add_edge from_node to_node route) from_node to_node = some route ∧
    (g.add_edge from_node to_node route).nodes = g.nodes :=
  add_edge_always_records g from_node to_node route

/-- C7: when start = goal (and the start node has no stale parent pointer,
as on any freshly built graph), `astar_search` returns the singleton path
`[n]` with `g = 0` recorded on the node: the goal test happens before any
expansion.  The no-self-loop hypothesis of the claim is carried along but the
result holds regardless of it — precisely because the goal check precedes
expansion. -/
theorem C7_start_equals_goal_returns_singleton_path (g : Graph ℝ) (n : String)
    (nd : Node ℝ) (hn : aget g.nodes n = some nd) (hp : nd.parent = none)
    (_hs : routeBetween g n n = none) (fuel : Nat) :
    ∃ gf : Graph ℝ, astar_search haversine n n g (fuel + 1) = ARes.path [n] gf ∧
      (aget gf.nodes n).map Node.g = some (some 0) := by
  refine ⟨_, astar_self_run haversine g n nd hn hp fuel, ?_⟩
  simp [aget_aset_self]

/-- A one-node, zero-edge graph used to witness C7 and C10. -/
noncomputable def soloGraph : Graph ℝ := Graph.mk [] [] |>.add_node "N" (0, 0)

theorem C7_witness :
    aget soloGraph.nodes "N" = some (Node.init "N" ((0 : ℝ), 0)) ∧
    (Node.init "N" ((0 : ℝ), 0)).parent = none ∧
    routeBetween soloGraph "N" "N" = none ∧
    (∃ gf : Graph ℝ, astar_search haversine "N" "N" soloGraph (0 + 1) = ARes.path ["N"] gf ∧
      (aget gf.nodes "N").map Node.g = some (some 0)) :=
  ⟨rfl, rfl, rfl,
    C7_start_equals_goal_returns_singleton_path soloGraph "N" (Node.init "N" (0, 0))
      rfl rfl rfl 0⟩

/-- C8: `collect_route_details` returns exactly the componentwise sums the
claim states: total time is the sum of
`base_time + stop_time + average_delay + expected_waiting + transfer_time`
over the edges, total cost the sum of `base_cost`, transfers `len − 1` (so a
single edge gives `0` and the empty list gives `−1`), and total transfer time
the sum of `transfer_time`. -/
theorem C8_collect_route_details_componentwise_sums (routes : List (TransportRoute ℝ)) :
    collect_route_details routes =
      ((routes.map (fun r => r.base_time + r.stop_time + r.average_delay +
          r.expected_waiting + r.transfer_time)).sum,
       (routes.map (fun r => r.base_cost)).sum,
       (routes.length : ℤ) - 1,
       (routes.map (fun r => r.transfer_time)).sum) := by
  simp [collect_route_details, foldl_add_eq, TransportRoute.calculate_total_cost,
    TransportRoute.calculate_total_time]

/-- C10: `get_neighbors` on a node with no outgoing edges returns the empty
collection without raising — and, because `edges` is a `defaultdict`, it
mutates the graph by appending a fresh empty adjacency entry under the
node's name; the node table and all other edge entries are untouched. -/
theorem C10_get_neighbors_inserts_empty_entry (g : Graph ℝ) (n : String)
    (h : aget g.edges n = none) :
    g.get_neighbors n = ([], Graph.mk g.nodes (g.edges ++ [(n, [])])) := by
  simp [Graph.get_neighbors, h]

theorem C10_witness :
    aget soloGraph.edges "N" = none ∧
    soloGraph.get_neighbors "N" =
      ([], Graph.mk soloGraph.nodes (soloGraph.edges ++ [("N", [])])) :=
  ⟨rfl, C10_get_neighbors_inserts_empty_entry soloGraph "N" rfl⟩

/-- Route `P → Q` of the two-node rerun counterexample graph (cost 5). -/
def rPQ : TransportRoute ℝ :=
  { name := "pq", mode := "m", class_type := "c", base_cost := 5, base_time := 0,
    average_delay := 0, transfer_time := 0, stop_time := 0, expected_waiting := 0 }

/-- Route `Q → P` of the two-node rerun counterexample graph (cost 5). -/
def rQP : TransportRoute ℝ :=
  { name := "qp", mode := "m", class_type := "c", base_cost := 5, base_time := 0,
    average_delay := 0, transfer_time := 0, stop_time := 0, expected_waiting := 0 }

/-- Two nodes `P ⇄ Q` with both edges of cost 5 (equal coordinates, so the
heuristic is zero). -/
noncomputable def pqGraph : Graph ℝ :=
  Graph.mk [] []
  |>.add_node "P" (0, 0) |>.add_node "Q" (0, 0)
  |>.add_edge "P" "Q" rPQ |>.add_edge "Q" "P" rQP

/-- The edge table of `pqGraph`. -/
def pqE : List (String × List (String × TransportRoute ℝ)) :=
  [("P", [("Q", rPQ)]), ("Q", [("P", rQP)])]

/-- First run (`P → Q`): state right after initialization. -/
def pqSt0 : SState ℝ :=
  { open_set := ["P"], closed_set := [],
    graph := Graph.mk
      [("P", { name := "P", location := (0,0), g := some 0, h := 0, f := some 0, parent := none }),
       ("Q", { name := "Q", location := (0,0), g := none, h := 0, f := none, parent := none })]
      pqE }

/-- The graph after the first run: `Q` keeps `g = 5` and `parent = P`. -/
def pqG1 : Graph ℝ :=
  Graph.mk
    [("P", { name := "P", location := (0,0), g := some 0, h := 0, f := some 0, parent := none }),
     ("Q", { name := "Q", location := (0,0), g := some 5, h := 0, f := some 5, parent := some "P" })]
    pqE

/-- First run: state after one iteration (`P` expanded). -/
def pqSt1 : SState ℝ :=
  { open_set := ["Q"], closed_set := ["P"], graph := pqG1 }

/-- Second run (`Q → P` on the mutated graph): only the start node `Q` is
re-initialized; `P` keeps its stale `g = 0` and `Q` its stale parent `P`. -/
def pqG2 : Graph ℝ :=
  Graph.mk
    [("P", { name := "P", location := (0,0), g := some 0, h := 0, f := some 0, parent := none }),
     ("Q", { name := "Q", location := (0,0), g := some 0, h := 0, f := some 0, parent := some "P" })]
    pqE

/-- Second run: state right after initialization. -/
def pqR2St0 : SState ℝ :=
  { open_set := ["Q"], closed_set := [], graph := pqG2 }

/-- Second run: state after one iteration — the relaxation `0 + 5 < 0` fails
against `P`'s stale `g = 0`, so nothing is updated. -/
def pqR2St1 : SState ℝ :=
  { open_set := ["P"], closed_set := ["Q"], graph := pqG2 }

/-- Fresh run (`Q → P` on the freshly built graph): post-initialization. -/
def pqR3St0 : SState ℝ :=
  { open_set := ["Q"], closed_set := [],
    graph := Graph.mk
      [("P", { name := "P", location := (0,0), g := none, h := 0, f := none, parent := none }),
       ("Q", { name := "Q", location := (0,0), g := some 0, h := 0, f := some 0, parent := none })]
      pqE }

/-- Fresh run: graph after `Q`'s expansion relaxed `P`. -/
def pqG3 : Graph ℝ :=
  Graph.mk
    [("P", { name := "P", location := (0,0), g := some 5, h := 0, f := some 5, parent := some "Q" }),
     ("Q", { name := "Q", location := (0,0), g := some 0, h := 0, f := some 0, parent := none })]
    pqE

/-- Fresh run: state after one iteration. -/
def pqR3St1 : SState ℝ :=
  { open_set := ["P"], closed_set := ["Q"], graph := pqG3 }

theorem pq_r1_init (m : Nat) :
    astar_search haversine "P" "Q" pqGraph m = astarGo haversine "Q" (0, 0) m pqSt0 := by
  simp [astar_search, pqGraph, Graph.add_node, Graph.add_edge, Node.init, aset, aget,
    pqSt0, pqE, haversine_self, rPQ, rQP]

theorem pq_r1_step0 : stepFn haversine "Q" (0, 0) pqSt0 = .next pqSt1 := by
  simp [stepFn, stepGo, pqSt0, pqSt1, pqG1, pqE, selectMin, fscore, aget, aset, removeFirst,
    Graph.get_neighbors, Graph.get_route, expand, haversine_self,
    TransportRoute.calculate_total_cost, rPQ, rQP]

theorem pq_r1_step1 : stepFn haversine "Q" (0, 0) pqSt1 = .found ["P", "Q"] pqG1 := by
  simp [stepFn, stepGo, pqSt1, pqG1, pqE, selectMin, fscore, aget, reconstruct_path]

theorem pq_r2_init (m : Nat) :
    astar_search haversine "Q" "P" pqG1 m = astarGo haversine "P" (0, 0) m pqR2St0 := by
  simp [astar_search, pqG1, pqG2, aset, aget, pqR2St0, pqE, haversine_self]

theorem pq_r2_step0 : stepFn haversine "P" (0, 0) pqR2St0 = .next pqR2St1 := by
  simp [stepFn, stepGo, pqR2St0, pqR2St1, pqG2, pqE, selectMin, fscore, aget, aset, removeFirst,
    Graph.get_neighbors, Graph.get_route, expand, haversine_self,
    TransportRoute.calculate_total_cost, rPQ, rQP]

theorem pq_r2_step1 : stepFn haversine "P" (0, 0) pqR2St1 = .found ["P"] pqG2 := by
  simp [stepFn, stepGo, pqR2St1, pqG2, pqE, selectMin, fscore, aget, reconstruct_path]

theorem pq_r3_init (m : Nat) :
    astar_search haversine "Q" "P" pqGraph m = astarGo haversine "P" (0, 0) m pqR3St0 := by
  simp [astar_search, pqGraph, Graph.add_node, Graph.add_edge, Node.init, aset, aget,
    pqR3St0, pqE, haversine_self, rPQ, rQP]

theorem pq_r3_step0 : stepFn haversine "P" (0, 0) pqR3St0 = .next pqR3St1 := by
  simp [stepFn, stepGo, pqR3St0, pqR3St1, pqG3, pqE, selectMin, fscore, aget, aset, removeFirst,
    Graph.get_neighbors, Graph.get_route, expand, haversine_self,
    TransportRoute.calculate_total_cost, rPQ, rQP]

theorem pq_r3_step1 : stepFn haversine "P" (0, 0) pqR3St1 = .found ["Q", "P"] pqG3 := by
  simp [stepFn, stepGo, pqR3St1, pqG3, pqE, selectMin, fscore, aget, reconstruct_path]

/-- C4: consecutive searches are *not* independent.  On `pqGraph`
(`P ⇄ Q`, both edges cost 5) a first search `P → Q` returns `[P, Q]` and
leaves `Q.g = 5`, `Q.parent = P`, `P.g = 0` behind.  A second search `Q → P`
on the same graph then returns the bogus single-node path `[P]` — it does not
even start at `Q` — because the relaxation of `P` fails against `P`'s stale
`g = 0` and reconstruction follows `P`'s stale empty parent; the same search
on a freshly built graph returns `[Q, P]`.  The node scratch fields are
mutated in place and never reset per run, so the spec's "fresh or reset per
run" is the intent and the code is wrong. -/
theorem C4_second_run_differs_from_fresh_run :
    astar_search haversine "P" "Q" pqGraph 2 = ARes.path ["P", "Q"] pqG1 ∧
    astar_search haversine "Q" "P" pqG1 2 = ARes.path ["P"] pqG2 ∧
    astar_search haversine "Q" "P" pqGraph 2 = ARes.path ["Q", "P"] pqG3 ∧
    (["P"] : List String) ≠ ["Q", "P"] ∧
    (aget pqG1.nodes "Q").map Node.g = some (some 5) ∧
    (aget pqG1.nodes "Q").map Node.parent = some (some "P") := by
  refine ⟨?_, ?_, ?_, by simp, by simp [pqG1, aget], by simp [pqG1, aget]⟩
  · rw [pq_r1_init]
    show astarGo haversine "Q" (0, 0) (1 + 1) pqSt0 = ARes.path ["P", "Q"] pqG1
    rw [astarGo, pq_r1_step0]
    show astarGo haversine "Q" (0, 0) (0 + 1) pqSt1 = ARes.path ["P", "Q"] pqG1
    rw [astarGo, pq_r1_step1]
  · rw [pq_r2_init]
    show astarGo haversine "P" (0, 0) (1 + 1) pqR2St0 = ARes.path ["P"] pqG2
    rw [astarGo, pq_r2_step0]
    show astarGo haversine "P" (0, 0) (0 + 1) pqR2St1 = ARes.path ["P"] pqG2
    rw [astarGo, pq_r2_step1]
  · rw [pq_r3_init]
    show astarGo haversine "P" (0, 0) (1 + 1) pqR3St0 = ARes.path ["Q", "P"] pqG3
    rw [astarGo, pq_r3_step0]
    show astarGo haversine "P" (0, 0) (0 + 1) pqR3St1 = ARes.path ["Q", "P"] pqG3
    rw [astarGo, pq_r3_step1]

/-- The single candidate station of the C9 scenario (a `Node` object exactly
as `graph.nodes.values()` would yield it). -/
def planStation : Node ℝ :=
  { name := "S", location := (0, 0), g := none, h := 0, f := none, parent := none }

/-- One-station graph for the C9 scenario. -/
noncomputable def planGraph : Graph ℝ := Graph.mk [] [] |>.add_node "S" (0, 0)

/-- The graph after `plan_trip`'s single (same-station) search. -/
def planG1 : Graph ℝ :=
  Graph.mk
    [("S", { name := "S", location := (0,0), g := some 0, h := 0, f := some 0, parent := none })]
    []

theorem plan_solo_search :
    astar_search haversine "S" "S" planGraph 1 = ARes.path ["S"] planG1 := by
  have h := astar_self_run haversine planGraph "S" (Node.init "S" (0, 0)) rfl rfl 0
  simpa [planGraph, Graph.add_node, Node.init, aset, aget, haversine_self, planG1] using h

/-- Helper: on a one-station instance where the same station is nearest to
both origin and destination, `plan_trip` runs the same-station search, gets
the truthy single-node path `[S]`, builds the empty edge list from it, and
hands that empty list to `collect_route_details` — producing exactly one
candidate with `total_transfers = -1`. -/
theorem plan_trip_solo_eval :
    plan_trip haversine (0, 0) (0, 0) [planStation] planGraph 1 =
      some [{ total_time := 0, total_cost := 0, total_transfers := -1,
              total_transfer_time := 0, route := [] }] := by
  simp [plan_trip, find_nearest_stations, sortByKey, insertSorted, searchPairs,
    plan_solo_search, consecPairs, routeListFor, collect_route_details, planStation]

/-- C9 counterexample: the claim says no candidate in `plan_trip`'s result
ever has `total_transfers = -1`; on the one-station instance the returned
candidate list is exactly `[-1]` in its transfer counts. -/
theorem C9_counterexample_minus_one_transfers :
    (plan_trip haversine (0, 0) (0, 0) [planStation] planGraph 1).map
      (fun l => l.map Candidate.total_transfers) = some [-1] := by
  rw [plan_trip_solo_eval]
  rfl

/-- C9 amended: `plan_trip` filters only falsy search results (`None` and the
impossible empty list); a same-station origin/destination pair yields the
single-node path, whose empty edge sequence does reach
`collect_route_details`, so the result contains a candidate with
`total_transfers = -1`, total time/cost/transfer-time 0 and an empty route. -/
theorem C9_plan_trip_emits_minus_one_transfers :
    plan_trip haversine (0, 0) (0, 0) [planStation] planGraph 1 =
      some [{ total_time := 0, total_cost := 0, total_transfers := -1,
              total_transfer_time := 0, route := [] }] :=
  plan_trip_solo_eval

theorem routeBetween_eq_of_edges {α : Type} {g1 g2 : Graph α} (h : g1.edges = g2.edges)
    (a b : String) : routeBetween g1 a b = routeBetween g2 a b := by
  simp [routeBetween, h]

theorem aget_append_single {β : Type} (l : List (String × β)) (k : String) (v : β)
    (a : String) :
    aget (l ++ [(k, v)]) a =
      match aget l a with
      | some x => some x
      | none => if k = a then some v else none := by
  induction l with
  | nil => simp [aget]
  | cons p t ih =>
    by_cases hp : p.1 = a
    · simp [aget, hp]
    · simpa [aget, hp] using ih

theorem routeBetween_append_empty {α : Type} (nodes : List (String × Node α))
    (edges : List (String × List (String × TransportRoute α))) (k a b : String) :
    routeBetween (Graph.mk nodes (edges ++ [(k, [])])) a b =
      routeBetween (Graph.mk nodes edges) a b := by
  simp only [routeBetween, aget_append_single]
  cases h : aget edges a with
  | some d => rfl
  | none =>
    by_cases hk : k = a
    · simp [hk, aget]
    · simp [hk]

theorem get_neighbors_routeBetween {α : Type} (g : Graph α) (n a b : String) :
    routeBetween (g.get_neighbors n).2 a b = routeBetween g a b := by
  unfold Graph.get_neighbors
  cases h : aget g.edges n with
  | some d => rfl
  | none => exact routeBetween_append_empty g.nodes g.edges n a b

theorem get_route_routeBetween {α : Type} (g : Graph α) (c n a b : String) :
    routeBetween (g.get_route c n).2 a b = routeBetween g a b := by
  unfold Graph.get_route
  cases h : aget g.edges c with
  | some d => rfl
  | none =>
    have : ({ g with edges := g.edges ++ [(c, [])] } : Graph α) =
        Graph.mk g.nodes (g.edges ++ [(c, [])]) := rfl
    simpa [this] using routeBetween_append_empty g.nodes g.edges c a b

theorem aget_mem_keys {β : Type} (d : List (String × β)) (b : String)
    (h : b ∈ d.map Prod.fst) : (aget d b).isSome = true := by
  induction d with
  | nil => simp at h
  | cons p t ih =>
    by_cases hp : p.1 = b
    · simp [aget, hp]
    · rw [List.map_cons] at h
      rcases List.mem_cons.1 h with h1 | h1
      · exact absurd h1.symm hp
      · simpa [aget, hp] using ih h1

theorem removeFirst_subset (l : List String) (a x : String) (h : x ∈ removeFirst l a) :
    x ∈ l := by
  induction l with
  | nil => simp [removeFirst] at h
  | cons y t ih =>
    by_cases hy : y = a
    · simp [removeFirst, hy] at h
      simp [h]
    · rw [removeFirst, if_neg hy] at h
      rcases List.mem_cons.1 h with h1 | h1
      · simp [h1]
      · simp [ih h1]

theorem selectMin_mem {α : Type} [LinearOrderedField α] (g : Graph α) (o : String)
    (os : List String) : selectMin g o os ∈ o :: os := by
  suffices h : ∀ (os : List String) (acc : String),
      (os.foldl (fun best n => if oLt (fscore g n) (fscore g best) then n else best) acc) = acc ∨
      (os.foldl (fun best n => if oLt (fscore g n) (fscore g best) then n else best) acc) ∈ os by
    rcases h os o with h1 | h1
    · simp [selectMin, h1]
    · simp [selectMin, List.mem_cons, h1]
  intro os
  induction os with
  | nil => intro acc; left; rfl
  | cons n t ih =>
    intro acc
    rcases ih (if oLt (fscore g n) (fscore g acc) then n else acc) with h1 | h1
    · by_cases hc : oLt (fscore g n) (fscore g acc)
      · right; rw [List.foldl_cons, h1, if_pos hc]; simp
      · left; rw [List.foldl_cons, h1, if_neg hc]
    · right; simp [h1]

theorem expand_spec {α : Type} [LinearOrderedField α] (dist : α × α → α × α → α)
    (gl : α × α) (cur : String) :
    ∀ (nbrs : List String) (g : Graph α) (opn : List String)
      (g2 : Graph α) (opn2 : List String),
      expand dist gl cur nbrs g opn = some (g2, opn2) →
      (∀ a b, routeBetween g2 a b = routeBetween g a b) ∧
      (∀ x ∈ opn2, x ∈ opn ∨ x ∈ nbrs) := by
  intro nbrs
  induction nbrs with
  | nil =>
    intro g opn g2 opn2 h
    rw [expand] at h
    injection h with h
    injection h with h1 h2
    subst h1; subst h2
    exact ⟨fun a b => rfl, fun x hx => Or.inl hx⟩
  | cons nb rest ih =>
    intro g opn g2 opn2 h
    rw [expand] at h
    cases hnb : aget g.nodes nb with
    | none => rw [hnb] at h; cases h
    | some nbNd =>
      rw [hnb] at h
      cases hr : (g.get_route cur nb).1 with
      | none => rw [hr] at h; cases h
      | some route =>
        rw [hr] at h
        cases hc : aget (g.get_route cur nb).2.nodes cur with
        | none => rw [hc] at h; cases h
        | some curNd =>
          rw [hc] at h
          rcases ih _ _ _ _ h with ⟨hroute, hopen⟩
          constructor
          · intro a b
            rw [hroute a b]
            have hedges :
                (if oLt (curNd.g.map (fun x => x + route.calculate_total_cost)) nbNd.g then
                  { (g.get_route cur nb).2 with nodes := (aset (g.get_route cur nb).2.nodes nb
                    ({ nbNd with
                        parent := some cur
                        g := curNd.g.map (fun x => x + route.calculate_total_cost)
                        h := dist nbNd.location gl
                        f := (curNd.g.map (fun x => x + route.calculate_total_cost)).map
                          (fun x => x + dist nbNd.location gl) })) }
                 else (g.get_route cur nb).2).edges = (g.get_route cur nb).2.edges := by
              split <;> rfl
            rw [routeBetween_eq_of_edges hedges a b]
            exact get_route_routeBetween g cur nb a b
          · intro x hx
            rcases hopen x hx with h1 | h1
            · by_cases hm : nb ∈ opn
              · rw [if_pos hm] at h1
                exact Or.inl h1
              · rw [if_neg hm] at h1
                rcases List.mem_append.1 h1 with h2 | h2
                · exact Or.inl h2
                · simp only [List.mem_singleton] at h2
                  subst h2
                  simp
            · simp [h1]

theorem stepFn_found_spec {α : Type} [LinearOrderedField α] {dist : α × α → α × α → α}
    {gn : String} {gl : α × α} {st : SState α} {p : List String} {gf : Graph α}
    (h : stepFn dist gn gl st = .found p gf) :
    ∃ o os, st.open_set = o :: os ∧ selectMin st.graph o os = gn := by
  rw [stepFn] at h
  cases hop : st.open_set with
  | nil => rw [hop, stepGo] at h; cases h
  | cons o os =>
    rw [hop, stepGo] at h
    refine ⟨o, os, rfl, ?_⟩
    by_cases hgoal : selectMin st.graph o os = gn
    · exact hgoal
    · rw [if_neg hgoal] at h
      cases hex : expand dist gl (selectMin st.graph o os)
          (st.graph.get_neighbors (selectMin st.graph o os)).1
          (st.graph.get_neighbors (selectMin st.graph o os)).2
          (removeFirst (o :: os) (selectMin st.graph o os)) with
      | none => rw [hex] at h; cases h
      | some pr => rw [hex] at h; cases h

theorem stepFn_next_spec {α : Type} [LinearOrderedField α] {dist : α × α → α × α → α}
    {gn : String} {gl : α × α} {st st' : SState α}
    (h : stepFn dist gn gl st = .next st') :
    (∀ a b, routeBetween st'.graph a b = routeBetween st.graph a b) ∧
    (∀ x ∈ st'.open_set, x ∈ st.open_set ∨
      ∃ c, c ∈ st.open_set ∧ EdgeStep st.graph c x) := by
  rw [stepFn] at h
  cases hop : st.open_set with
  | nil => rw [hop, stepGo] at h; cases h
  | cons o os =>
    rw [hop, stepGo] at h
    by_cases hgoal : selectMin st.graph o os = gn
    · rw [if_pos hgoal] at h
      cases hrec : reconstruct_path st.graph (st.graph.nodes.length + 1)
          (selectMin st.graph o os) with
      | none => rw [hrec] at h; cases h
      | some p => rw [hrec] at h; cases h
    · rw [if_neg hgoal] at h
      cases hex : expand dist gl (selectMin st.graph o os)
          (st.graph.get_neighbors (selectMin st.graph o os)).1
          (st.graph.get_neighbors (selectMin st.graph o os)).2
          (removeFirst (o :: os) (selectMin st.graph o os)) with
      | none => rw [hex] at h; cases h
      | some pr =>
        rw [hex] at h
        injection h with h
        rcases expand_spec dist gl (selectMin st.graph o os) _ _ _ _ _ hex with
          ⟨hroute, hopen⟩
        have hgr : st'.graph = pr.1 := by rw [← h]
        have hos : st'.open_set = pr.2 := by rw [← h]
        constructor
        · intro a b
          rw [hgr, hroute a b]
          exact get_neighbors_routeBetween st.graph (selectMin st.graph o os) a b
        · intro x hx
          rw [hos] at hx
          rcases hopen x hx with h1 | h1
          · exact Or.inl (removeFirst_subset _ _ _ h1)
          · right
            refine ⟨selectMin st.graph o os, selectMin_mem _ o os, ?_⟩
            revert h1
            unfold Graph.get_neighbors
            cases hcn : aget st.graph.edges (selectMin st.graph o os) with
            | none => intro h1; cases h1
            | some d =>
              intro h1
              have := aget_mem_keys d x (by simpa using h1)
              simp only [EdgeStep, routeBetween, hcn, Option.bind]
              exact this

theorem astarGo_no_path {α : Type} [LinearOrderedField α] (dist : α × α → α × α → α)
    (g0 : Graph α) (s gn : String) (gl : α × α) (hnr : ¬ Reaches g0 s gn) :
    ∀ (fuel : Nat) (st : SState α),
      (∀ a b, routeBetween st.graph a b = routeBetween g0 a b) →
      (∀ x ∈ st.open_set, Reaches g0 s x) →
      ∀ (p : List String) (gf : Graph α), astarGo dist gn gl fuel st ≠ ARes.path p gf := by
  intro fuel
  induction fuel with
  | zero => intro st _ _ p gf h; cases h
  | succ m ih =>
    intro st hedges hopen p gf h
    rw [astarGo] at h
    cases hstep : stepFn dist gn gl st with
    | found p' gf' =>
      rcases stepFn_found_spec hstep with ⟨o, os, hop, hsel⟩
      apply hnr
      have := hopen gn (by rw [hop, ← hsel]; exact selectMin_mem st.graph o os)
      exact this
    | nopath g' => rw [hstep] at h; cases h
    | err => rw [hstep] at h; cases h
    | next st' =>
      rw [hstep] at h
      rcases stepFn_next_spec hstep with ⟨hroute, hopen'⟩
      refine ih st' (fun a b => (hroute a b).trans (hedges a b)) ?_ p gf h
      intro x hx
      rcases hopen' x hx with h1 | h1
      · exact hopen x h1
      · rcases h1 with ⟨c, hc, hedge⟩
        refine Relation.ReflTransGen.tail (hopen c hc) ?_
        simpa [EdgeStep, hedges c x] using hedge

/-- Helper: for any distance function, any graph, any scratch state and any
fuel, `astar_search` can only return a path when the goal is reachable from
the start along directed edges. -/
theorem astar_search_no_path {α : Type} [LinearOrderedField α] (dist : α × α → α × α → α)
    (g : Graph α) (start goal : String) (hnr : ¬ Reaches g start goal) (fuel : Nat)
    (p : List String) (gf : Graph α) :
    astar_search dist start goal g fuel ≠ ARes.path p gf := by
  rw [astar_search]
  cases hs : aget g.nodes start with
  | none => intro h; cases h
  | some sNd =>
    cases hg : aget g.nodes goal with
    | none => intro h; cases h
    | some gNd =>
      apply astarGo_no_path dist g start goal gNd.location hnr fuel
      · intro a b
        exact routeBetween_eq_of_edges rfl a b
      · intro x hx
        simp only [List.mem_singleton] at hx
        subst hx
        exact Relation.ReflTransGen.refl

/-- Helper: `cycGraph` has no edge into `G` at all. -/
theorem cyc_no_edge_into_G (c : String) : ¬ EdgeStep cycGraph c "G" := by
  intro h
  have hE : cycGraph.edges = cycE := by
    simp [cycGraph, Graph.add_edge, Graph.add_node, aget, aset, cycE]
  simp only [EdgeStep, routeBetween, hE, cycE, aget] at h
  split_ifs at h <;> simp [aget, aset] at h

/-- Helper: in `cycGraph` the goal `G` is not reachable from the start `S`. -/
theorem cyc_goal_unreachable : ¬ Reaches cycGraph "S" "G" := by
  intro h
  rcases Relation.ReflTransGen.cases_tail h with h1 | ⟨c, _, hedge⟩
  · simp at h1
  · exact cyc_no_edge_into_G c hedge

/-- C6 counterexample: the claim says that whenever no directed path exists,
`astar_search` *returns* the explicit no-path signal.  On `cycGraph` the goal
`G` is unreachable from `S`, yet the search never returns the signal — the
loop runs forever (closed nodes are re-inserted into the open set), so there
is no fuel bound under which `return None` is reached. -/
theorem C6_counterexample_unreachable_but_no_signal :
    ¬ Reaches cycGraph "S" "G" ∧ ¬ returnsNoPathSignal cycGraph "S" "G" := by
  refine ⟨cyc_goal_unreachable, ?_⟩
  rintro ⟨n, gf, h⟩
  rw [cyc_never_returns n] at h
  cases h

/-- C6 amended: when no directed path from start to goal exists,
`astar_search` never returns a node sequence — every open-set member is
reachable from the start, so the goal can never be extracted; if the loop
terminates it returns the no-path signal, but (per the counterexample) on
cyclic graphs it may simply never terminate. -/
theorem C6_no_path_result_when_goal_unreachable (g : Graph ℝ) (start goal : String)
    (hnr : ¬ Reaches g start goal) (fuel : Nat) (p : List String) (gf : Graph ℝ) :
    astar_search haversine start goal g fuel ≠ ARes.path p gf :=
  astar_search_no_path haversine g start goal hnr fuel p gf

theorem C6_witness :
    ¬ Reaches cycGraph "S" "G" ∧
    astar_search haversine "S" "G" cycGraph 7 ≠ ARes.path ["S"] cycGraph :=
  ⟨cyc_goal_unreachable,
    C6_no_path_result_when_goal_unreachable cycGraph "S" "G" cyc_goal_unreachable 7
      ["S"] cycGraph⟩

set_option maxHeartbeats 1000000 in
/-- The kilometre-valued heuristic at station B: the great-circle distance
from B (Los Angeles) to C (London) exceeds 200 — in fact it is about
8750 km, and 200 is all the search comparison needs. -/
theorem haversine_B_C_gt_200 :
    200 < haversine (34.0522, -118.2437) (51.5074, -0.1278) := by
  have pi_lb := Real.pi_gt_d6
  have pi_ub := Real.pi_lt_d6
  simp only [haversine]
  rw [show ((51.5074:ℝ) - 34.0522) = 17.4552 by norm_num,
      show ((-0.1278:ℝ) - -118.2437) = 118.1159 by norm_num]
  set x1 := radians 34.0522 with hx1def
  set x2 := radians 51.5074 with hx2def
  set sh := radians 17.4552 / 2 with hshdef
  set th := radians 118.1159 / 2 with hthdef
  set a := Real.sin sh ^ 2 + Real.cos x1 * Real.cos x2 * Real.sin th ^ 2 with hadef
  have hx1_pos : 0 < x1 := by rw [hx1def]; unfold radians; positivity
  have hx1_lt : x1 < Real.pi / 2 := by
    rw [hx1def]; unfold radians; nlinarith [Real.pi_pos]
  have hx2_pos : 0 < x2 := by rw [hx2def]; unfold radians; positivity
  have hx2_lt : x2 < Real.pi / 2 := by
    rw [hx2def]; unfold radians; nlinarith [Real.pi_pos]
  have hx2_lb : 0.898973 < x2 := by rw [hx2def]; unfold radians; linarith
  have hx2_ub : x2 < 0.898974 := by rw [hx2def]; unfold radians; linarith
  have hsh_lb : 0.152325 < sh := by rw [hshdef]; unfold radians; linarith
  have hsh_ub : sh < 0.152326 := by rw [hshdef]; unfold radians; linarith
  have hc1_nonneg : 0 ≤ Real.cos x1 :=
    Real.cos_nonneg_of_mem_Icc ⟨by nlinarith [Real.pi_pos], le_of_lt hx1_lt⟩
  have hc2_nonneg : 0 ≤ Real.cos x2 :=
    Real.cos_nonneg_of_mem_Icc ⟨by nlinarith [Real.pi_pos], le_of_lt hx2_lt⟩
  have hc1_le : Real.cos x1 ≤ 1 := Real.cos_le_one x1
  have hsin_sh_lb : 0.1514 < Real.sin sh := by
    have h1 := Real.sin_gt_sub_cube (by linarith) (by linarith : sh ≤ 1)
    have h2 : sh ^ 2 < 0.0232033 := by
      nlinarith [mul_pos (show (0:ℝ) < 0.152326 - sh by linarith)
        (show (0:ℝ) < 0.152326 + sh by linarith)]
    have h3 : sh ^ 3 < 0.0035346 := by
      nlinarith [mul_lt_mul_of_pos_left h2 (show (0:ℝ) < sh by linarith)]
    nlinarith
  have hsin_sh_ub : Real.sin sh < 0.152326 := by
    have := Real.sin_lt (show (0:ℝ) < sh by linarith)
    linarith
  have hcos_x2 : Real.cos x2 < 0.63 := by
    have hb := Real.cos_bound (show |x2| ≤ 1 by rw [abs_of_pos hx2_pos]; linarith)
    rw [abs_of_pos hx2_pos] at hb
    have h2l : 0.808152 < x2 ^ 2 := by
      nlinarith [mul_pos (show (0:ℝ) < x2 - 0.898973 by linarith)
        (show (0:ℝ) < x2 + 0.898973 by linarith)]
    have h2u : x2 ^ 2 < 0.808155 := by
      nlinarith [mul_pos (show (0:ℝ) < 0.898974 - x2 by linarith)
        (show (0:ℝ) < 0.898974 + x2 by linarith)]
    have h4 : x2 ^ 4 < 0.653115 := by
      have hq : x2 ^ 4 = (x2 ^ 2) ^ 2 := by ring
      rw [hq]
      nlinarith [mul_pos (show (0:ℝ) < 0.808155 - x2 ^ 2 by linarith)
        (show (0:ℝ) < 0.808155 + x2 ^ 2 by linarith)]
    have hb2 := (abs_le.1 hb).2
    nlinarith
  have hsin_th_sq : 0 ≤ Real.sin th ^ 2 := sq_nonneg _
  have hsin_th_le : Real.sin th ^ 2 ≤ 1 := Real.sin_sq_le_one th
  have ha_lb : 0.0229 < a := by
    rw [hadef]
    nlinarith [mul_nonneg (mul_nonneg hc1_nonneg hc2_nonneg) hsin_th_sq]
  have ha_ub : a < 0.66 := by
    rw [hadef]
    have hp1 : Real.cos x1 * Real.cos x2 ≤ Real.cos x2 := by
      nlinarith [mul_nonneg (sub_nonneg.2 hc1_le) hc2_nonneg]
    have hp2 : Real.cos x1 * Real.cos x2 * Real.sin th ^ 2 ≤ Real.cos x1 * Real.cos x2 := by
      nlinarith [mul_nonneg (mul_nonneg hc1_nonneg hc2_nonneg) (sub_nonneg.2 hsin_th_le)]
    nlinarith
  have h1a_pos : 0 < 1 - a := by linarith
  have hs1a_pos : 0 < Real.sqrt (1 - a) := Real.sqrt_pos.2 h1a_pos
  have hs1a_le : Real.sqrt (1 - a) ≤ 1 := by
    have h := Real.sqrt_le_sqrt (show 1 - a ≤ 1 by linarith)
    rwa [Real.sqrt_one] at h
  have hsa : 0.151 < Real.sqrt a := by
    rw [Real.lt_sqrt (by norm_num)]
    nlinarith
  rw [atan2, if_pos hs1a_pos]
  have hratio : 0.151 < Real.sqrt a / Real.sqrt (1 - a) := by
    have h1 : Real.sqrt a ≤ Real.sqrt a / Real.sqrt (1 - a) := by
      rw [le_div_iff₀ hs1a_pos]
      nlinarith [Real.sqrt_nonneg a]
    linarith
  have harc : Real.arctan 0.151 < Real.arctan (Real.sqrt a / Real.sqrt (1 - a)) :=
    Real.arctan_strictMono hratio
  have htan : Real.tan (100 / 6371) < 0.151 := by
    have hpos : (0:ℝ) < 100 / 6371 := by norm_num
    have hsin := Real.sin_lt hpos
    have hcosb := Real.cos_bound (show |(100/6371:ℝ)| ≤ 1 by
      rw [abs_of_pos hpos]; norm_num)
    rw [abs_of_pos hpos] at hcosb
    have hcos_lb : (0.999:ℝ) < Real.cos (100 / 6371) := by
      have h1 := (abs_le.1 hcosb).1
      nlinarith
    rw [Real.tan_eq_sin_div_cos, div_lt_iff₀ (by linarith)]
    nlinarith
  have hta : (100 / 6371 : ℝ) < Real.arctan 0.151 := by
    have heq : Real.arctan (Real.tan (100 / 6371)) = 100 / 6371 :=
      Real.arctan_tan (by nlinarith [Real.pi_gt_three]) (by nlinarith [Real.pi_gt_three])
    rw [← heq]
    exact Real.arctan_strictMono htan
  have hfinal : (100 / 6371 : ℝ) < Real.arctan (Real.sqrt a / Real.sqrt (1 - a)) :=
    lt_trans hta harc
  have h63 : (6371.0 : ℝ) = 6371 := by norm_num
  rw [h63]
  linarith [hfinal]

/-- The edge table of `exampleGraph` in normal form. -/
def exE : List (String × List (String × TransportRoute ℝ)) :=
  [("Station A", [("Station B", rAB), ("Station C", rAC)]),
   ("Station B", [("Station C", rBC)])]

/-- The example-graph search `A → C`: state right after initialization (the
start node's `h`/`f` hold the symbolic heuristic value `h(A, C)`, which never
influences the run because the first open set is a singleton). -/
noncomputable def exSt0 : SState ℝ :=
  { open_set := ["Station A"], closed_set := [],
    graph := Graph.mk
      [("Station A",
        { name := "Station A"
          location := (40.7128, -74.0060)
          g := some 0
          h := haversine (40.7128, -74.0060) (51.5074, -0.1278)
          f := some (haversine (40.7128, -74.0060) (51.5074, -0.1278))
          parent := none }),
       ("Station B",
        { name := "Station B"
          location := (34.0522, -118.2437)
          g := none
          h := 0
          f := none
          parent := none }),
       ("Station C",
        { name := "Station C"
          location := (51.5074, -0.1278)
          g := none
          h := 0
          f := none
          parent := none })]
      exE }

/-- The example-graph search after one iteration: both neighbors of A were
relaxed; B carries `f = 100 + h(B, C)` with the kilometre-valued heuristic,
C carries `f = 300 + h(C, C) = 300`. -/
noncomputable def exG1 : Graph ℝ :=
  Graph.mk
    [("Station A",
      { name := "Station A"
        location := (40.7128, -74.0060)
        g := some 0
        h := haversine (40.7128, -74.0060) (51.5074, -0.1278)
        f := some (haversine (40.7128, -74.0060) (51.5074, -0.1278))
        parent := none }),
     ("Station B",
      { name := "Station B"
        location := (34.0522, -118.2437)
        g := some 100
        h := haversine (34.0522, -118.2437) (51.5074, -0.1278)
        f := some (100 + haversine (34.0522, -118.2437) (51.5074, -0.1278))
        parent := some "Station A" }),
     ("Station C",
      { name := "Station C"
        location := (51.5074, -0.1278)
        g := some 300
        h := 0
        f := some 300
        parent := some "Station A" })]
    exE

/-- The example-graph search: state after one iteration. -/
noncomputable def exSt1 : SState ℝ :=
  { open_set := ["Station B", "Station C"], closed_set := ["Station A"], graph := exG1 }

theorem ex_init (m : Nat) :
    astar_search haversine "Station A" "Station C" exampleGraph m =
      astarGo haversine "Station C" (51.5074, -0.1278) m exSt0 := by
  simp [astar_search, exampleGraph, Graph.add_node, Graph.add_edge, Node.init, aset, aget,
    exSt0, exE, rAB, rBC, rAC]

theorem ex_step0 : stepFn haversine "Station C" (51.5074, -0.1278) exSt0 = .next exSt1 := by
  simp [stepFn, stepGo, exSt0, exSt1, exG1, exE, selectMin, fscore, aget, aset, removeFirst,
    Graph.get_neighbors, Graph.get_route, expand, haversine_self,
    TransportRoute.calculate_total_cost, rAB, rBC, rAC]

theorem ex_step1 :
    stepFn haversine "Station C" (51.5074, -0.1278) exSt1 =
      .found ["Station A", "Station C"] exG1 := by
  have h300 : (300 : ℝ) < 100 + haversine (34.0522, -118.2437) (51.5074, -0.1278) := by
    nlinarith [haversine_B_C_gt_200]
  simp [stepFn, stepGo, exSt1, exG1, exE, selectMin, fscore, aget, reconstruct_path, h300]

/-- C1: on the `__main__` example graph the search from A to C returns the
*direct* flight `[A, C]` of total cost 300, even though the directed path
`[A, B, C]` of total cost 250 exists — so the returned sequence is not the
minimum-cost path and the claimed optimality (and the concrete `A→B→C`
scenario) fails.  The cause is the unit mismatch the spec flags as likely
unintentional: the heuristic is the great-circle distance in kilometres
(`h(B, C) > 200`, in fact ≈ 8750), added to currency-valued `g`, so C
(`f = 300`) is extracted before B (`f = 100 + h(B, C) > 300`). -/
theorem C1_example_search_returns_costlier_direct_path :
    astar_search haversine "Station A" "Station C" exampleGraph 2 =
      ARes.path ["Station A", "Station C"] exG1 ∧
    pathCost exampleGraph ["Station A", "Station C"] = some 300 ∧
    isPathIn exampleGraph ["Station A", "Station B", "Station C"] ∧
    pathCost exampleGraph ["Station A", "Station B", "Station C"] = some 250 ∧
    (250 : ℝ) < 300 := by
  refine ⟨?_, ?_, ?_, ?_, by norm_num⟩
  · rw [ex_init]
    show astarGo haversine "Station C" (51.5074, -0.1278) (1 + 1) exSt0 =
      ARes.path ["Station A", "Station C"] exG1
    rw [astarGo, ex_step0]
    show astarGo haversine "Station C" (51.5074, -0.1278) (0 + 1) exSt1 =
      ARes.path ["Station A", "Station C"] exG1
    rw [astarGo, ex_step1]
  · simp [pathCost, consecPairs, routeBetween, exampleGraph, Graph.add_node, Graph.add_edge,
      aset, aget, rAB, rBC, rAC, TransportRoute.calculate_total_cost]
  · constructor
    · simp
    · intro ab hab
      simp only [consecPairs, List.mem_cons] at hab
      rcases hab with h1 | h1 | h1
      · subst h1
        simp [routeBetween, exampleGraph, Graph.add_node, Graph.add_edge, aset, aget,
          rAB, rBC, rAC]
      · subst h1
        simp [routeBetween, exampleGraph, Graph.add_node, Graph.add_edge, aset, aget,
          rAB, rBC, rAC]
      · simp at h1
  · simp [pathCost, consecPairs, routeBetween, exampleGraph, Graph.add_node, Graph.add_edge,
      aset, aget, rAB, rBC, rAC, TransportRoute.calculate_total_cost]
    norm_num

end TransitPlan
